import Mathlib

/-!
Verification development for the Logi dial → After Effects bridge
(`src/unnamed/part_001`, the panel script, and `src/logi_receiver.jsx`,
an earlier variant).  The engine's tick logic is embedded shallowly:
JavaScript numbers are modelled as rationals, the host-application
parameter surface as explicit value/mutation datatypes, and the
file-mediated state channel as lists of read candidates.
-/

namespace LogiBridge

/-- The shape of a target property's current value, as classified by
`updateProperty`: a plain number, an array of numbers together with the
`propInfo.valueType === PropertyValueType.COLOR` flag, or anything else
(the "Cannot adjust" path). -/
inductive PropValue where
  | num (n : ℚ)
  | arr (xs : List ℚ) (isColor : Bool)
  | other
deriving DecidableEq, Repr

/-- A mutation issued to the host application by `updateProperty`:
either `prop.setValue(v)` or `prop.setValueAtTime(t, v)` (the keyframed
write at the playhead). -/
inductive HostWrite where
  | setValue (v : PropValue)
  | setValueAtTime (t : ℚ) (v : PropValue)
deriving DecidableEq, Repr

/-- Result of one `updateProperty` pass in `src/unnamed/part_001`:
the updated dial baselines (`lastDialValue`, `lastSmallDialValue`),
the composition's playhead time after the small-dial scrub, and the
property write issued to the host (if any). -/
structure UpdateResult where
  lastDialValue : Option ℚ
  lastSmallDialValue : Option ℚ
  time : ℚ
  mutation : Option HostWrite
deriving DecidableEq, Repr

/-- The glitch threshold in `src/unnamed/part_001` `updateProperty`
(`var maxDelta = 200`). -/
def maxDelta : ℚ := 200

/-- The glitch threshold in `src/logi_receiver.jsx` `updateProperty`
(`var maxDelta = 50`). -/
def maxDeltaJsx : ℚ := 50

/-- `updateProperty` from `src/unnamed/part_001` (lines 1176–1320),
from the point where the position file has been read, assuming the
earlier guards passed (panel active, valid composition/layer/effect/
property, layer unchanged).  Inputs: the cached baselines, the sample
`(x, y)` from `readPositionFile`, the effective sensitivities (after
`parseFloat(...) || default`), the playhead time, composition duration
and frame duration, whether the property already has keyframes, and
the property's current value. -/
def updateProperty (lastDial lastSmall : Option ℚ) (x y : ℚ)
    (bigSens timelineSens : ℚ) (time duration frameTime : ℚ)
    (hasKeyframes : Bool) (currentValue : PropValue) : UpdateResult :=
  let bigDialChanged : Bool := lastDial ≠ some x
  let smallDialChanged : Bool := lastSmall ≠ some y
  if !bigDialChanged && !smallDialChanged then
    ⟨lastDial, lastSmall, time, none⟩
  else
    let dialDelta := match lastDial with | some v => x - v | none => 0
    let smallDialDelta := match lastSmall with | some w => y - w | none => 0
    let dialDelta := if |dialDelta| > maxDelta then 0 else dialDelta
    let smallDialDelta := if |smallDialDelta| > maxDelta then 0 else smallDialDelta
    let time' :=
      if smallDialDelta ≠ 0 then
        max 0 (min (duration - frameTime) (time + smallDialDelta * timelineSens * frameTime))
      else time
    if dialDelta = 0 then
      ⟨some x, some y, time', none⟩
    else
      let delta := dialDelta * bigSens
      match currentValue with
      | .num n =>
        let newValue := n + delta
        ⟨some x, some y, time',
          some (if hasKeyframes then .setValueAtTime time' (.num newValue)
                else .setValue (.num newValue))⟩
      | .arr [] _c => ⟨some x, some y, time', none⟩
      | .arr (a :: rest) c =>
        let a' := if c then max 0 (min 1 (a + delta * (1/100))) else a + delta
        ⟨some x, some y, time',
          some (if hasKeyframes then .setValueAtTime time' (.arr (a' :: rest) c)
                else .setValue (.arr (a' :: rest) c))⟩
      | .other => ⟨some x, some y, time', none⟩

/-- Result of one `updateProperty` pass in `src/logi_receiver.jsx`
(no small dial, no keyframe handling). -/
structure UpdateResultJsx where
  lastDialValue : Option ℚ
  mutation : Option HostWrite
deriving DecidableEq, Repr

/-- `updateProperty` from `src/logi_receiver.jsx` (lines 409–491),
from the point where the position file has been read.  A rejected
glitch (`|dialDelta| > 50`) stores the raw sample as the new baseline
and returns without touching the property. -/
def updatePropertyJsx (lastDial : Option ℚ) (x : ℚ) (sens : ℚ)
    (currentValue : PropValue) : UpdateResultJsx :=
  if lastDial = some x then ⟨lastDial, none⟩
  else
    let dialDelta := match lastDial with | some v => x - v | none => 0
    if |dialDelta| > maxDeltaJsx then ⟨some x, none⟩
    else if dialDelta = 0 then ⟨some x, none⟩
    else
      let delta := dialDelta * sens
      match currentValue with
      | .num n => ⟨some x, some (.setValue (.num (n + delta)))⟩
      | .arr [] _c => ⟨some x, none⟩
      | .arr (a :: rest) c =>
        let a' := if c then max 0 (min 1 (a + delta * (1/100))) else a + delta
        ⟨some x, some (.setValue (.arr (a' :: rest) c))⟩
      | .other => ⟨some x, none⟩

/-- One dial tick over a scalar, keyframe-free target: feed one position
sample through `updateProperty` and apply the resulting `setValue`
mutation to the tracked scalar.  State is `(lastDialValue, propValue)`. -/
def stepScalar (s : Option ℚ × ℚ) (x : ℚ) (sens : ℚ) : Option ℚ × ℚ :=
  let r := updateProperty s.1 (some 0) x 0 sens 1 0 100 1 false (.num s.2)
  (r.lastDialValue,
    match r.mutation with
    | some (.setValue (.num n)) => n
    | _ => s.2)

/-- The parsed button record `{button, pressed, timestamp}` from
`readButtonFile`.  `button = none` models an absent or empty `button`
field (falsy in `if (!btnData.button)`); `timestamp = none` models an
absent `timestamp` field, which `btnData.timestamp || 0` turns into 0. -/
structure ButtonData where
  button : Option String
  pressed : Bool
  timestamp : Option ℚ
deriving DecidableEq, Repr

/-- Effect navigation from `checkButtons` (lines 948–973 of
`src/unnamed/part_001`): `isNext = true` for "TOP RIGHT", false for
"TOP LEFT".  Computes the new dropdown index with cyclic wraparound
over `numEffects`, applying it only when it differs from the current
index and the effect list is non-empty. -/
def navigateEffectIdx (isNext : Bool) (currentIdx numEffects : Int) : Int :=
  let newIdx :=
    if isNext then
      if currentIdx + 1 ≥ numEffects then 0 else currentIdx + 1
    else
      if currentIdx - 1 < 0 then numEffects - 1 else currentIdx - 1
  if newIdx ≠ currentIdx ∧ numEffects > 0 then newIdx else currentIdx

/-- Layer navigation from `checkButtons` (lines 976–1006 of
`src/unnamed/part_001`): `isNext = true` for "BOTTOM RIGHT", false for
"BOTTOM LEFT".  Layer indices are 1-based; a failed
`getCurrentLayerIndex` (−1) is replaced by 1.  Returns the index passed
to `selectLayerByIndex` (which only acts inside `[1, numLayers]`), or
`none` when no selection call is made. -/
def navigateLayerIdx (isNext : Bool) (currentLayerIdx numLayers : Int) : Option Int :=
  let cur := if currentLayerIdx < 0 then 1 else currentLayerIdx
  let newIdx :=
    if isNext then
      if cur + 1 > numLayers then 1 else cur + 1
    else
      if cur - 1 < 1 then numLayers else cur - 1
  if newIdx = cur then none
  else if 1 ≤ newIdx ∧ newIdx ≤ numLayers then some newIdx else none

/-- The navigation-relevant panel state touched by `checkButtons`:
the duplicate-suppression marker `lastButtonTimestamp` (initialised to
0 at line 72 of `src/unnamed/part_001`), the effect dropdown index with
the effect count, and the selected layer index with the layer count. -/
structure PanelState where
  lastButtonTimestamp : ℚ
  effectIdx : Int
  numEffects : Int
  layerIdx : Int
  numLayers : Int
deriving DecidableEq, Repr

/-- `checkButtons` from `src/unnamed/part_001` (lines 927–1126):
event acceptance (missing record, missing button name, stale timestamp,
release events) followed by the TOP/BOTTOM navigation.  The returned
string is the accepted button name, dispatched to the keypad/keyframe
handlers (`none` means the tick performs no navigation and no
mutation). -/
def checkButtons (st : PanelState) (btnData : Option ButtonData) :
    PanelState × Option String :=
  match btnData with
  | none => (st, none)
  | some d =>
    match d.button with
    | none => (st, none)
    | some name =>
      let ts := d.timestamp.getD 0
      if ts ≤ st.lastButtonTimestamp then (st, none)
      else
        let st1 := { st with lastButtonTimestamp := ts }
        if !d.pressed then (st1, none)
        else
          let st2 :=
            if name = "TOP RIGHT" ∨ name = "TOP LEFT" then
              { st1 with effectIdx :=
                  navigateEffectIdx (name = "TOP RIGHT") st1.effectIdx st1.numEffects }
            else st1
          let st3 :=
            if name = "BOTTOM RIGHT" ∨ name = "BOTTOM LEFT" then
              match navigateLayerIdx (name = "BOTTOM RIGHT") st2.layerIdx st2.numLayers with
              | some j => { st2 with layerIdx := j }
              | none => st2
            else st2
          (st3, some name)

/-- The initial panel state: `lastButtonTimestamp = 0` (line 72). -/
def initialPanelState (effectIdx numEffects layerIdx numLayers : Int) : PanelState :=
  ⟨0, effectIdx, numEffects, layerIdx, numLayers⟩

/-- Fold `checkButtons` over a sequence of button-file reads. -/
def runButtons (st : PanelState) (inputs : List (Option ButtonData)) : PanelState :=
  inputs.foldl (fun s b => (checkButtons s b).1) st

/-- A keyframe on a property's timeline: a time and a value (values on
vector properties are modelled by their first component, which is all
the engine touches). -/
structure Keyframe where
  time : ℚ
  value : ℚ
deriving DecidableEq, Repr

/-- The keyframe-at-playhead tolerance from `checkButtons` button 8:
`Math.abs(keyTime - currentTime) < 0.001`. -/
def kfEpsilon : ℚ := 1/1000

/-- Distance from the playhead time `t` to a keyframe. -/
def distTo (t : ℚ) (k : Keyframe) : ℚ := |k.time - t|

/-- The host's `nearestKeyIndex`: the (0-based) index of a keyframe at
minimal distance to `t`, together with that keyframe; earlier keyframes
win ties.  `none` exactly when the timeline is empty
(`prop.numKeys = 0`). -/
def nearestPair (t : ℚ) : List Keyframe → Option (Nat × Keyframe)
  | [] => none
  | k :: ks =>
    match nearestPair t ks with
    | none => some (0, k)
    | some (j, kj) =>
      if distTo t k ≤ distTo t kj then some (0, k) else some (j + 1, kj)

/-- The host's `setValueAtTime`: update the keyframe at exactly time
`t` when one exists, otherwise insert a new keyframe there, keeping the
timeline sorted by time. -/
def setValueAtTime : List Keyframe → ℚ → ℚ → List Keyframe
  | [], t, v => [⟨t, v⟩]
  | k :: ks, t, v =>
    if t < k.time then ⟨t, v⟩ :: k :: ks
    else if t = k.time then ⟨t, v⟩ :: ks
    else k :: setValueAtTime ks t v

/-- The keyframe toggle on keypad button 8 (`checkButtons`, lines
1060–1093 of `src/unnamed/part_001`): if the timeline is non-empty and
the keyframe nearest to the playhead lies within `kfEpsilon` of it,
remove that keyframe (`prop.removeKey(keyAtTime)`); otherwise insert a
keyframe at the playhead with the property's current value
(`prop.setValueAtTime(currentTime, currentValue)`). -/
def toggleAtPlayhead (keys : List Keyframe) (t v : ℚ) : List Keyframe :=
  match nearestPair t keys with
  | some (i, ki) =>
    if distTo t ki < kfEpsilon then keys.eraseIdx i
    else setValueAtTime keys t v
  | none => setValueAtTime keys t v

/-- Is a keyframe within the toggle tolerance of `t`? -/
def nearP (t : ℚ) (k : Keyframe) : Bool := distTo t k < kfEpsilon

/-- Keyframe presence at the playhead: some keyframe lies within the
toggle tolerance of `t` (the condition the toggle itself tests through
the nearest keyframe). -/
def hasKeyNear (keys : List Keyframe) (t : ℚ) : Bool := keys.any (nearP t)

/-- The opening brace character, used by the corruption guard. -/
def braceOpen : Char := Char.ofNat 123

/-- The closing brace character, used by the corruption guard. -/
def braceClose : Char := Char.ofNat 125

/-- A whitespace character, as matched by the trimming regex
`/^\s+|\s+$/g` of both readers. -/
def isSpaceChar (ch : Char) : Bool :=
  ch == ' ' || ch == '\t' || ch == '\n' || ch == '\r'

/-- Strip leading and trailing whitespace from a character list. -/
def trimChars (cs : List Char) : List Char :=
  ((cs.dropWhile isSpaceChar).reverse.dropWhile isSpaceChar).reverse

/-- The cheap corruption guard of both readers: after trimming, the
content must start with a left brace (`c.charAt(0)`) and end with a
right brace (`c.charAt(c.length - 1)`); an empty trimmed string fails
both character tests. -/
def braceGuardOk (c : String) : Bool :=
  match trimChars c.data with
  | [] => false
  | ch :: rest => ch == braceOpen && rest.getLastD ch == braceClose

/-- The position record produced by `JSON.parse` on a candidate file.
`x`/`y` are `some` exactly when the field is present, numeric and
finite (the `typeof parsed.x === 'number' && isFinite(parsed.x)`
check); `ts` is the marker value `(parsed._ts || parsed.timestamp) || 0`. -/
structure PosRecord where
  x : Option ℚ
  y : Option ℚ
  ts : ℚ
deriving DecidableEq, Repr

/-- One candidate path for `readPositionFile`: whether the file exists,
its raw content, and the result of `JSON.parse` on it (`none` when the
parse throws). -/
structure PosCandidate where
  fileExists : Bool
  content : String
  parsed : Option PosRecord
deriving DecidableEq, Repr

/-- The reader state owned by `readPositionFile`: the last valid cached
position (`lastValidPosition`, initialised `{x: 0, y: 0}`), the last
seen marker (`lastPositionTS`), and the retained raw content
(`lastRawPositionContent`, debug only). -/
structure PosReadState where
  lastValidPosition : ℚ × ℚ
  lastPositionTS : ℚ
  lastRaw : String
deriving DecidableEq, Repr

/-- The inner `tryPath` of `readPositionFile` (lines 355–381 of
`src/unnamed/part_001`): existence check, raw-content retention,
brace guard, parse, marker-based duplicate short-circuit, and the
finite-number field validation that refreshes the cache. -/
def tryPath (st : PosReadState) (c : PosCandidate) :
    PosReadState × Option (ℚ × ℚ) :=
  if !c.fileExists then (st, none)
  else
    let st := { st with lastRaw := c.content }
    if c.content.length = 0 then (st, none)
    else if !braceGuardOk c.content then (st, none)
    else
      match c.parsed with
      | none => (st, none)
      | some p =>
        if p.ts ≠ 0 ∧ p.ts = st.lastPositionTS then
          (st, some st.lastValidPosition)
        else
          let st := if p.ts ≠ 0 then { st with lastPositionTS := p.ts } else st
          match p.x, p.y with
          | some px, some py =>
            ({ st with lastValidPosition := (px, py) }, some (px, py))
          | _, _ => (st, none)

/-- Try the candidate list in order, stopping at the first success. -/
def tryPaths (st : PosReadState) : List PosCandidate → PosReadState × Option (ℚ × ℚ)
  | [] => (st, none)
  | c :: cs =>
    match tryPath st c with
    | (st', some p) => (st', some p)
    | (st', none) => tryPaths st' cs

/-- `readPositionFile` (lines 350–400 of `src/unnamed/part_001`):
clear the raw trace, try the primary path then every fallback
candidate in order, and on total failure mark the trace "(missing)"
when nothing was read and return the last valid cached position. -/
def readPositionFile (st : PosReadState) (primary : PosCandidate)
    (fallbacks : List PosCandidate) : PosReadState × (ℚ × ℚ) :=
  let st0 := { st with lastRaw := "" }
  match tryPaths st0 (primary :: fallbacks) with
  | (st1, some p) => (st1, p)
  | (st1, none) =>
    let st2 := if st1.lastRaw.length = 0 then { st1 with lastRaw := "(missing)" } else st1
    (st2, st2.lastValidPosition)

/-- One candidate path for `readButtonFile`: existence, raw content,
and the `JSON.parse` result (`none` when the parse throws). -/
structure BtnCandidate where
  fileExists : Bool
  content : String
  parsed : Option ButtonData
deriving DecidableEq, Repr

/-- The inner `tryPathB` of `readButtonFile` (lines 410–426 of
`src/unnamed/part_001`): existence check, raw-content retention, brace
guard, parse.  No field validation and no cache. -/
def tryPathB (raw : String) (c : BtnCandidate) : String × Option ButtonData :=
  if !c.fileExists then (raw, none)
  else
    let raw := c.content
    if c.content.length = 0 then (raw, none)
    else if !braceGuardOk c.content then (raw, none)
    else (raw, c.parsed)

/-- Try the button candidates in order, stopping at the first success. -/
def tryPathsB (raw : String) : List BtnCandidate → String × Option ButtonData
  | [] => (raw, none)
  | c :: cs =>
    match tryPathB raw c with
    | (raw', some r) => (raw', some r)
    | (raw', none) => tryPathsB raw' cs

/-- `readButtonFile` (lines 406–440 of `src/unnamed/part_001`): clear
the raw trace, try the primary path then every fallback candidate, and
on total failure mark the trace "(missing)" and return `null` — there
is no last-valid cache for the button kind. -/
def readButtonFile (primary : BtnCandidate) (fallbacks : List BtnCandidate) :
    String × Option ButtonData :=
  match tryPathsB "" (primary :: fallbacks) with
  | (raw, some r) => (raw, some r)
  | (raw, none) =>
    ((if raw.length = 0 then "(missing)" else raw), none)

/-- The body of one scheduler tick (`$.global.logiReceiverUpdate`,
lines 1367–1379 of `src/unnamed/part_001`): when the panel is active,
run `checkButtons` then `updateProperty`, each of which may throw.
`Except.error m` models an uncaught JavaScript exception with message
`m` escaping the step. -/
def tickBody (isActive : Bool) (checkStep updateStep : Except String Unit) :
    Except String Unit :=
  if isActive then do
    checkStep
    updateStep
  else Except.ok ()

/-- One full scheduler tick: the body runs inside `try { ... } catch
(e) { statusText.text = "Scheduler error: " + e.message }`, so every
failure is converted into a status report and the tick itself returns
normally.  The result is the status report (if any). -/
def logiReceiverUpdate (isActive : Bool)
    (checkStep updateStep : Except String Unit) : Option String :=
  match tickBody isActive checkStep updateStep with
  | Except.ok _ => none
  | Except.error m => some ("Scheduler error: " ++ m)

/-- The fixed-interval scheduler: `app.scheduleTask(..., 33, true)`
re-invokes the tick indefinitely; each scheduled tick runs
`logiReceiverUpdate` on that tick's inputs.  The output lists one
status result per scheduled tick. -/
def runScheduler (ticks : List (Bool × Except String Unit × Except String Unit)) :
    List (Option String) :=
  ticks.map fun t => logiReceiverUpdate t.1 t.2.1 t.2.2

/-! ## Theorems -/

/-- C1: for every tick in which the absolute difference between the
newly read sample and the cached baseline exceeds the configured
maxDelta threshold for that channel, the delta applied to that
channel's target is 0 for that tick: the big-dial property mutation is
suppressed (`part_001` and the jsx variant) and the small-dial playhead
scrub leaves the time unchanged. -/
theorem glitch_rejected_no_mutation :
    (∀ (lastSmall : Option ℚ) (v x y bigSens tSens time dur ft : ℚ)
        (hk : Bool) (cv : PropValue),
      |x - v| > maxDelta →
      (updateProperty (some v) lastSmall x y bigSens tSens time dur ft hk cv).mutation = none)
    ∧ (∀ (lastDial : Option ℚ) (w x y bigSens tSens time dur ft : ℚ)
        (hk : Bool) (cv : PropValue),
      |y - w| > maxDelta →
      (updateProperty lastDial (some w) x y bigSens tSens time dur ft hk cv).time = time)
    ∧ (∀ (v x sens : ℚ) (cv : PropValue),
      |x - v| > maxDeltaJsx →
      (updatePropertyJsx (some v) x sens cv).mutation = none) := by
  refine ⟨?_, ?_, ?_⟩
  · intro lastSmall v x y bigSens tSens time dur ft hk cv h
    have hxv : ¬ ((some v : Option ℚ) = some x) := by
      intro he
      rw [Option.some_inj] at he
      rw [he, sub_self, abs_zero] at h
      exact absurd h (by norm_num [maxDelta])
    simp only [updateProperty, hxv, h]
    split <;> rfl
  · intro lastDial w x y bigSens tSens time dur ft hk cv h
    have hyw : ¬ ((some w : Option ℚ) = some y) := by
      intro he
      rw [Option.some_inj] at he
      rw [he, sub_self, abs_zero] at h
      exact absurd h (by norm_num [maxDelta])
    have h0 : (if |y - w| > maxDelta then (0:ℚ) else y - w) = 0 := if_pos h
    simp only [updateProperty]
    split
    · rfl
    · split
      · simp
      · split
        · simp
        · cases cv with
          | num n => simp
          | arr xs c => cases xs <;> simp
          | other => simp
  · intro v x sens cv h
    have hxv : ¬ ((some v : Option ℚ) = some x) := by
      intro he
      rw [Option.some_inj] at he
      rw [he, sub_self, abs_zero] at h
      exact absurd h (by norm_num [maxDeltaJsx])
    simp only [updatePropertyJsx, hxv, h]
    simp

/-- C1 witness. -/
theorem glitch_rejected_no_mutation_witness :
    (updateProperty (some 0) (some 0) 300 0 1 1 0 100 1 false (.num 5)).mutation = none
    ∧ (updateProperty (some 0) (some 0) 0 300 1 1 7 100 1 false (.num 5)).time = 7
    ∧ (updatePropertyJsx (some 0) 60 1 (.num 5)).mutation = none :=
  ⟨glitch_rejected_no_mutation.1 (some 0) 0 300 0 1 1 0 100 1 false (.num 5)
      (by norm_num [maxDelta]),
   glitch_rejected_no_mutation.2.1 (some 0) 0 0 300 1 1 7 100 1 false (.num 5)
      (by norm_num [maxDelta]),
   glitch_rejected_no_mutation.2.2 0 60 1 (.num 5) (by norm_num [maxDeltaJsx])⟩

/-- C2: the per-tick delta is the current sample minus the previous
(accepted) sample held as baseline; the very first sample yields delta
0, produces no mutation, and only establishes the baseline; an accepted
subsequent sample updates a keyframe-free scalar target to
`old + (x − v)·sensitivity`; and the concrete scenario x=10 then x=15
at sensitivity 0.1 mutates the scalar by +0.5. -/
theorem accepted_delta_scalar_update :
    (∀ (lastSmall : Option ℚ) (x y bigSens tSens time dur ft : ℚ)
        (hk : Bool) (cv : PropValue),
      (updateProperty none lastSmall x y bigSens tSens time dur ft hk cv).mutation = none
      ∧ (updateProperty none lastSmall x y bigSens tSens time dur ft hk cv).lastDialValue
          = some x)
    ∧ (∀ (lastSmall : Option ℚ) (v x y bigSens tSens time dur ft n : ℚ),
      x ≠ v → |x - v| ≤ maxDelta →
      (updateProperty (some v) lastSmall x y bigSens tSens time dur ft false
          (.num n)).mutation
        = some (.setValue (.num (n + (x - v) * bigSens)))
      ∧ (updateProperty (some v) lastSmall x y bigSens tSens time dur ft false
          (.num n)).lastDialValue = some x)
    ∧ (∀ old : ℚ,
      stepScalar (stepScalar (none, old) 10 (1/10)) 15 (1/10) = (some 15, old + 1/2)) := by
  refine ⟨?_, ?_, ?_⟩
  · intro lastSmall x y bigSens tSens time dur ft hk cv
    simp only [updateProperty]
    rw [if_neg (by simp)]
    exact ⟨rfl, rfl⟩
  · intro lastSmall v x y bigSens tSens time dur ft n hne hle
    have hxv : ¬ ((some v : Option ℚ) = some x) := by
      intro he
      exact hne (Option.some_inj.mp he).symm
    have hd : ¬ (x - v = 0) := sub_ne_zero_of_ne fun he => hne he
    have hglitch : ¬ (|x - v| > maxDelta) := not_lt.mpr hle
    simp only [updateProperty, hxv, hglitch]
    norm_num [hd, sub_ne_zero_of_ne, hne]
    rw [if_neg (fun hc => hne hc.1.symm)]
    exact ⟨rfl, rfl⟩
  · intro old
    simp [stepScalar, updateProperty, maxDelta]
    norm_num

/-- C2 witness. -/
theorem accepted_delta_scalar_update_witness :
    ((updateProperty none (some 0) 10 0 (1/10) 1 0 100 1 false (.num 7)).mutation = none
      ∧ (updateProperty none (some 0) 10 0 (1/10) 1 0 100 1 false
          (.num 7)).lastDialValue = some 10)
    ∧ ((updateProperty (some 10) (some 0) 15 0 (1/10) 1 0 100 1 false (.num 7)).mutation
        = some (.setValue (.num (7 + (15 - 10) * (1/10))))
      ∧ (updateProperty (some 10) (some 0) 15 0 (1/10) 1 0 100 1 false
          (.num 7)).lastDialValue = some 15) :=
  ⟨accepted_delta_scalar_update.1 (some 0) 10 0 (1/10) 1 0 100 1 false (.num 7),
   accepted_delta_scalar_update.2.1 (some 0) 10 15 0 (1/10) 1 0 100 1 7
     (by norm_num) (by norm_num [maxDelta])⟩

/-- C7: on a color-like vector target an accepted delta mutates only
the first component, by `delta·sensitivity·0.01`, clamped into [0, 1];
in particular first component 0.95 with dial delta 10 at sensitivity 1
clamps to exactly 1. -/
theorem color_vector_clamped_update :
    (∀ (lastSmall : Option ℚ) (v x y bigSens tSens time dur ft a : ℚ) (rest : List ℚ),
      x ≠ v → |x - v| ≤ maxDelta →
      (updateProperty (some v) lastSmall x y bigSens tSens time dur ft false
          (.arr (a :: rest) true)).mutation
        = some (.setValue (.arr (max 0 (min 1 (a + (x - v) * bigSens * (1/100))) :: rest) true))
      ∧ 0 ≤ max 0 (min 1 (a + (x - v) * bigSens * (1/100)))
      ∧ max 0 (min 1 (a + (x - v) * bigSens * (1/100))) ≤ 1)
    ∧ (updateProperty (some 0) (some 0) 10 0 1 1 0 100 1 false
          (.arr [19/20, 3] true)).mutation
        = some (.setValue (.arr [1, 3] true)) := by
  constructor
  · intro lastSmall v x y bigSens tSens time dur ft a rest hne hle
    have hxv : ¬ ((some v : Option ℚ) = some x) := by
      intro he
      exact hne (Option.some_inj.mp he).symm
    have hd : ¬ (x - v = 0) := sub_ne_zero_of_ne fun he => hne he
    have hglitch : ¬ (|x - v| > maxDelta) := not_lt.mpr hle
    refine ⟨?_, le_max_left 0 _, max_le (by norm_num) (min_le_left 1 _)⟩
    simp only [updateProperty, hxv, hglitch]
    norm_num [hd]
    rw [if_neg (fun hc => hne hc.1.symm)]
  · norm_num [updateProperty, maxDelta]

/-- C7 witness. -/
theorem color_vector_clamped_update_witness :
    (updateProperty (some 0) (some 0) 10 0 1 1 0 100 1 false
        (.arr [19/20, 3] true)).mutation
      = some (.setValue (.arr
          [max 0 (min 1 (19/20 + (10 - 0) * 1 * (1/100))), 3] true))
    ∧ 0 ≤ max 0 (min 1 ((19:ℚ)/20 + (10 - 0) * 1 * (1/100)))
    ∧ max 0 (min 1 ((19:ℚ)/20 + (10 - 0) * 1 * (1/100))) ≤ 1 :=
  color_vector_clamped_update.1 (some 0) 0 10 0 1 1 0 100 1 (19/20) [3]
    (by norm_num) (by norm_num [maxDelta])

/-- C10: when a dial delta is rejected by the glitch threshold, the
raw rejected sample still becomes the new cached baseline for that
channel, in both source variants, so the next tick's delta is measured
from the rejected sample. -/
theorem rejected_sample_updates_baseline :
    (∀ (lastSmall : Option ℚ) (v x y bigSens tSens time dur ft : ℚ)
        (hk : Bool) (cv : PropValue),
      |x - v| > maxDelta →
      (updateProperty (some v) lastSmall x y bigSens tSens time dur ft hk cv).lastDialValue
        = some x)
    ∧ (∀ (v x sens : ℚ) (cv : PropValue),
      |x - v| > maxDeltaJsx →
      (updatePropertyJsx (some v) x sens cv).lastDialValue = some x) := by
  constructor
  · intro lastSmall v x y bigSens tSens time dur ft hk cv h
    have hxv : ¬ ((some v : Option ℚ) = some x) := by
      intro he
      rw [Option.some_inj] at he
      rw [he, sub_self, abs_zero] at h
      exact absurd h (by norm_num [maxDelta])
    simp only [updateProperty, hxv, h]
    split
    · simp_all
    · split
      · simp
      · split
        · simp
        · cases cv with
          | num n => simp
          | arr xs c => cases xs <;> simp
          | other => simp
  · intro v x sens cv h
    have hxv : ¬ ((some v : Option ℚ) = some x) := by
      intro he
      rw [Option.some_inj] at he
      rw [he, sub_self, abs_zero] at h
      exact absurd h (by norm_num [maxDeltaJsx])
    simp only [updatePropertyJsx, hxv, h]
    simp

/-- C10 witness. -/
theorem rejected_sample_updates_baseline_witness :
    (updateProperty (some 0) (some 0) 300 0 1 1 0 100 1 false
        (.num 5)).lastDialValue = some 300
    ∧ (updatePropertyJsx (some 0) 60 1 (.num 5)).lastDialValue = some 60 :=
  ⟨rejected_sample_updates_baseline.1 (some 0) 0 300 0 1 1 0 100 1 false (.num 5)
      (by norm_num [maxDelta]),
   rejected_sample_updates_baseline.2 0 60 1 (.num 5) (by norm_num [maxDeltaJsx])⟩

/-- `checkButtons` never decreases the duplicate-suppression marker. -/
lemma checkButtons_lastTs_mono (st : PanelState) (b : Option ButtonData) :
    st.lastButtonTimestamp ≤ ((checkButtons st b).1).lastButtonTimestamp := by
  match b with
  | none => exact le_refl _
  | some d =>
    rcases hb : d.button with _ | name
    · simp only [checkButtons, hb]
      exact le_refl _
    · simp only [checkButtons, hb]
      by_cases hts : d.timestamp.getD 0 ≤ st.lastButtonTimestamp
      · rw [if_pos hts]
      · rw [if_neg hts]
        have hlt : st.lastButtonTimestamp ≤ d.timestamp.getD 0 := le_of_not_le hts
        split
        · exact hlt
        · split <;> split <;> (try split) <;> exact hlt

/-- When a record with a button name and a fresh timestamp is seen,
the marker is advanced to that timestamp before anything else runs. -/
lemma checkButtons_accept_lastTs (st : PanelState) (d : ButtonData) (name : String)
    (hb : d.button = some name)
    (hts : ¬ d.timestamp.getD 0 ≤ st.lastButtonTimestamp) :
    ((checkButtons st (some d)).1).lastButtonTimestamp = d.timestamp.getD 0 := by
  simp only [checkButtons, hb]
  rw [if_neg hts]
  split
  · rfl
  · split <;> split <;> (try split) <;> rfl

/-- A record without a button name leaves the whole tick inert. -/
lemma checkButtons_noButton (st : PanelState) (d : ButtonData)
    (hb : d.button = none) : checkButtons st (some d) = (st, none) := by
  simp only [checkButtons, hb]

/-- A stale or absent timestamp leaves the whole tick inert. -/
lemma checkButtons_stale (st : PanelState) (d : ButtonData)
    (hts : d.timestamp.getD 0 ≤ st.lastButtonTimestamp) :
    checkButtons st (some d) = (st, none) := by
  rcases hb : d.button with _ | name
  · simp only [checkButtons, hb]
  · simp only [checkButtons, hb]
    rw [if_pos hts]

/-- C4: of two button records processed in order with identical
non-zero timestamps, the second is treated as no event — the panel
state is untouched and no handler runs — and a record is acted on only
when its timestamp strictly exceeds the last accepted timestamp. -/
theorem duplicate_timestamp_no_event :
    (∀ (st : PanelState) (d1 d2 : ButtonData) (ts : ℚ) (b1 : String),
      d1.timestamp = some ts → d2.timestamp = some ts → ts ≠ 0 →
      d1.button = some b1 →
      checkButtons (checkButtons st (some d1)).1 (some d2)
        = ((checkButtons st (some d1)).1, none))
    ∧ (∀ (st : PanelState) (d : ButtonData),
      (checkButtons st (some d)).2 ≠ none →
      st.lastButtonTimestamp < d.timestamp.getD 0) := by
  constructor
  · intro st d1 d2 ts b1 ht1 ht2 _hts0 hb1
    by_cases hstale : d1.timestamp.getD 0 ≤ st.lastButtonTimestamp
    · rw [checkButtons_stale st d1 hstale]
      refine checkButtons_stale st d2 ?_
      rw [ht2]
      rw [ht1] at hstale
      exact hstale
    · refine checkButtons_stale _ d2 ?_
      rw [checkButtons_accept_lastTs st d1 b1 hb1 hstale, ht1, ht2]
  · intro st d h
    by_contra hle
    rw [not_lt] at hle
    rw [checkButtons_stale st d hle] at h
    exact h rfl

/-- C4 witness. -/
theorem duplicate_timestamp_no_event_witness :
    checkButtons
        (checkButtons ⟨0, 2, 3, 1, 4⟩ (some ⟨some "TOP RIGHT", true, some 1000⟩)).1
        (some ⟨some "TOP RIGHT", true, some 1000⟩)
      = ((checkButtons ⟨0, 2, 3, 1, 4⟩ (some ⟨some "TOP RIGHT", true, some 1000⟩)).1, none) :=
  duplicate_timestamp_no_event.1 ⟨0, 2, 3, 1, 4⟩
    ⟨some "TOP RIGHT", true, some 1000⟩ ⟨some "TOP RIGHT", true, some 1000⟩
    1000 "TOP RIGHT" rfl rfl (by norm_num) rfl

/-- C9: a button record whose timestamp is 0 or absent is treated as
"no event yet": from the initial state (marker 0) and after any input
sequence, it triggers no handler and leaves the state untouched. -/
theorem zero_timestamp_never_processed :
    ∀ (e n l m : Int) (inputs : List (Option ButtonData)) (d : ButtonData),
      (d.timestamp = none ∨ d.timestamp = some 0) →
      checkButtons (runButtons (initialPanelState e n l m) inputs) (some d)
        = (runButtons (initialPanelState e n l m) inputs, none) := by
  intro e n l m inputs d hd
  have hts : d.timestamp.getD 0 = 0 := by
    rcases hd with h | h <;> rw [h] <;> rfl
  have hnonneg : ∀ (st : PanelState) (is : List (Option ButtonData)),
      st.lastButtonTimestamp ≤ (runButtons st is).lastButtonTimestamp := by
    intro st is
    induction is generalizing st with
    | nil => exact le_refl _
    | cons i is ih =>
      exact le_trans (checkButtons_lastTs_mono st i) (ih _)
  refine checkButtons_stale _ d ?_
  rw [hts]
  exact le_trans (le_refl 0) (hnonneg (initialPanelState e n l m) inputs)

/-- C9 witness. -/
theorem zero_timestamp_never_processed_witness :
    checkButtons
        (runButtons (initialPanelState 0 3 1 4)
          [some ⟨some "TOP RIGHT", true, some 5⟩])
        (some ⟨some "8", true, some 0⟩)
      = (runButtons (initialPanelState 0 3 1 4)
          [some ⟨some "TOP RIGHT", true, some 5⟩], none) :=
  zero_timestamp_never_processed 0 3 1 4
    [some ⟨some "TOP RIGHT", true, some 5⟩] ⟨some "8", true, some 0⟩ (Or.inr rfl)

/-- C5: directional navigation wraps cyclically — "next" from the last
index reaches the first, "prev" from the first reaches the last — the
active index stays inside the collection's bounds, and navigation is a
no-op on collections with 0 or 1 members.  Effect navigation uses
0-based dropdown indices in `[0, n)`; layer navigation uses 1-based
composition indices in `[1, n]` (a `none` result means
`selectLayerByIndex` is never called, i.e. a no-op). -/
theorem navigation_cyclic_wraparound :
    (∀ n : Int, 1 ≤ n → navigateEffectIdx true (n - 1) n = 0)
    ∧ (∀ n : Int, 1 ≤ n → navigateEffectIdx false 0 n = n - 1)
    ∧ (∀ (b : Bool) (i n : Int), 0 ≤ i → i < n →
        0 ≤ navigateEffectIdx b i n ∧ navigateEffectIdx b i n < n)
    ∧ (∀ (b : Bool) (i : Int), navigateEffectIdx b i 0 = i)
    ∧ (∀ b : Bool, navigateEffectIdx b 0 1 = 0)
    ∧ (∀ n : Int, 2 ≤ n → navigateLayerIdx true n n = some 1)
    ∧ (∀ n : Int, 2 ≤ n → navigateLayerIdx false 1 n = some n)
    ∧ (∀ (b : Bool) (i n j : Int), navigateLayerIdx b i n = some j → 1 ≤ j ∧ j ≤ n)
    ∧ (∀ b : Bool, navigateLayerIdx b 1 1 = none ∧ navigateLayerIdx b (-1) 0 = none) := by
  refine ⟨?_, ?_, ?_, ?_, ?_, ?_, ?_, ?_, ?_⟩
  · intro n hn
    simp only [navigateEffectIdx]
    split_ifs <;> omega
  · intro n hn
    simp only [navigateEffectIdx, Bool.false_eq_true, if_false]
    split_ifs <;> omega
  · intro b i n h0 hn
    cases b <;> simp only [navigateEffectIdx] <;> split_ifs <;> constructor <;> omega
  · intro b i
    cases b <;> simp only [navigateEffectIdx] <;> split_ifs <;> omega
  · intro b
    cases b <;> rfl
  · intro n hn
    simp only [navigateLayerIdx]
    split_ifs
    all_goals try rfl
    all_goals omega
  · intro n hn
    simp only [navigateLayerIdx, Bool.false_eq_true, if_false]
    split_ifs
    all_goals try rfl
    all_goals omega
  · intro b i n j h
    cases b <;> simp only [navigateLayerIdx] at h <;> split_ifs at h <;>
      simp only [Option.some_inj] at h
    all_goals omega
  · intro b
    cases b <;> exact ⟨rfl, rfl⟩

/-- C5 witness. -/
theorem navigation_cyclic_wraparound_witness :
    navigateEffectIdx true 2 3 = 0
    ∧ navigateEffectIdx false 0 3 = 2
    ∧ (0 ≤ navigateEffectIdx true 1 3 ∧ navigateEffectIdx true 1 3 < 3)
    ∧ navigateLayerIdx true 4 4 = some 1
    ∧ navigateLayerIdx false 1 4 = some 4
    ∧ ((1:Int) ≤ 2 ∧ (2:Int) ≤ 4) :=
  ⟨navigation_cyclic_wraparound.1 3 (by norm_num),
   by
    have h := navigation_cyclic_wraparound.2.1 3 (by norm_num)
    norm_num at h
    exact h,
   navigation_cyclic_wraparound.2.2.1 true 1 3 (by norm_num) (by norm_num),
   navigation_cyclic_wraparound.2.2.2.2.2.1 4 (by norm_num),
   navigation_cyclic_wraparound.2.2.2.2.2.2.1 4 (by norm_num),
   navigation_cyclic_wraparound.2.2.2.2.2.2.2.1 true 1 4 2 (by decide)⟩

/-- C8: every failure raised inside a tick step is caught and turned
into a status report, the tick still returns normally, and the
scheduler keeps running: every scheduled tick produces a result, and
the ticks after any tick run unconditionally, whatever the earlier
tick's steps did. -/
theorem scheduler_tick_fault_containment :
    (∀ (a : Bool) (c u : Except String Unit) (m : String),
      tickBody a c u = Except.error m →
      logiReceiverUpdate a c u = some ("Scheduler error: " ++ m))
    ∧ (∀ ticks : List (Bool × Except String Unit × Except String Unit),
      (runScheduler ticks).length = ticks.length)
    ∧ (∀ (t : Bool × Except String Unit × Except String Unit)
        (ts : List (Bool × Except String Unit × Except String Unit)),
      runScheduler (t :: ts) = logiReceiverUpdate t.1 t.2.1 t.2.2 :: runScheduler ts) := by
  refine ⟨?_, ?_, ?_⟩
  · intro a c u m h
    simp only [logiReceiverUpdate, h]
  · intro ticks
    simp [runScheduler]
  · intro t ts
    rfl

/-- C8 witness. -/
theorem scheduler_tick_fault_containment_witness :
    logiReceiverUpdate true (Except.error "boom") (Except.ok ())
      = some ("Scheduler error: " ++ "boom") :=
  scheduler_tick_fault_containment.1 true (Except.error "boom") (Except.ok ())
    "boom" rfl

/-- A failed `tryPath` attempt never changes the cached position. -/
lemma tryPath_fail_preserves (st : PosReadState) (c : PosCandidate)
    (h : (tryPath st c).2 = none) :
    ((tryPath st c).1).lastValidPosition = st.lastValidPosition := by
  rcases c with ⟨fe, content, parsed⟩
  cases fe
  · rfl
  · by_cases h2 : content.length = 0
    · simp [tryPath, h2]
    · by_cases h3 : braceGuardOk content
      · rcases parsed with _ | p
        · simp [tryPath, h2, h3]
        · by_cases h4 : p.ts ≠ 0 ∧ p.ts = st.lastPositionTS
          · obtain ⟨h4a, h4b⟩ := h4
            have h5 : st.lastPositionTS ≠ 0 := h4b ▸ h4a
            simp [tryPath, h2, h3, h4a, h4b, h5] at h
          · rcases hx : p.x with _ | px
            · rcases hy : p.y with _ | py <;>
                simp [tryPath, h2, h3, h4, hx, hy] <;> split <;> rfl
            · rcases hy : p.y with _ | py
              · simp [tryPath, h2, h3, h4, hx, hy]
                split <;> rfl
              · simp [tryPath, h2, h3, h4, hx, hy] at h
      · simp [tryPath, h2, h3]

/-- A fully failed scan never changes the cached position. -/
lemma tryPaths_fail_preserves (st : PosReadState) (cs : List PosCandidate)
    (h : (tryPaths st cs).2 = none) :
    ((tryPaths st cs).1).lastValidPosition = st.lastValidPosition := by
  induction cs generalizing st with
  | nil => rfl
  | cons c cs ih =>
    simp only [tryPaths] at h ⊢
    rcases hp : tryPath st c with ⟨st', r⟩
    rw [hp] at h
    cases r with
    | some p => simp at h
    | none =>
      have h1 : st'.lastValidPosition = st.lastValidPosition := by
        have h2 := tryPath_fail_preserves st c (by rw [hp])
        rw [hp] at h2
        exact h2
      simp only at h ⊢
      rw [ih st' h]
      exact h1

/-- A missing file fails its `tryPath` attempt without touching state. -/
lemma tryPath_missing (st : PosReadState) (c : PosCandidate)
    (h : c.fileExists = false) : tryPath st c = (st, none) := by
  simp only [tryPath, h]
  rfl

/-- A scan over only missing files fails without touching state. -/
lemma tryPaths_all_missing (st : PosReadState) (cs : List PosCandidate)
    (h : ∀ c ∈ cs, c.fileExists = false) : tryPaths st cs = (st, none) := by
  induction cs with
  | nil => rfl
  | cons c cs ih =>
    simp only [tryPaths, tryPath_missing st c (h c (by simp))]
    exact ih fun d hd => h d (List.mem_cons_of_mem c hd)

/-- A missing file fails its `tryPathB` attempt without touching the trace. -/
lemma tryPathB_missing (raw : String) (c : BtnCandidate)
    (h : c.fileExists = false) : tryPathB raw c = (raw, none) := by
  simp only [tryPathB, h]
  rfl

/-- A button scan over only missing files yields nothing. -/
lemma tryPathsB_all_missing (raw : String) (cs : List BtnCandidate)
    (h : ∀ c ∈ cs, c.fileExists = false) : tryPathsB raw cs = (raw, none) := by
  induction cs with
  | nil => rfl
  | cons c cs ih =>
    simp only [tryPathsB, tryPathB_missing raw c (h c (by simp))]
    exact ih fun d hd => h d (List.mem_cons_of_mem c hd)

/-- C3 counterexample: the claim fails for the button kind.  A valid
button record is read successfully once, yet a subsequent read in which
the file is missing everywhere returns `none` — an empty value, not the
previously read record — because `readButtonFile` keeps no last-valid
cache. -/
theorem button_read_total_failure_cex :
    (readButtonFile ⟨true, "\x7bb\x7d", some ⟨some "8", true, some 5⟩⟩ []).2
      = some ⟨some "8", true, some 5⟩
    ∧ (readButtonFile ⟨false, "", none⟩ [⟨false, "", none⟩, ⟨false, "", none⟩]).2
      = none :=
  ⟨rfl, rfl⟩

/-- C3 (amended): on total read failure — file missing everywhere or
every candidate rejected by the guards — `readPositionFile` returns the
last valid cached position, but `readButtonFile` returns `none` (no
event) rather than a cached value. -/
theorem read_total_failure_cached_position_null_button :
    (∀ (st : PosReadState) (primary : PosCandidate) (fallbacks : List PosCandidate),
      (tryPaths { st with lastRaw := "" } (primary :: fallbacks)).2 = none →
      (readPositionFile st primary fallbacks).2 = st.lastValidPosition)
    ∧ (∀ (st : PosReadState) (primary : PosCandidate) (fallbacks : List PosCandidate),
      primary.fileExists = false → (∀ c ∈ fallbacks, c.fileExists = false) →
      (readPositionFile st primary fallbacks).2 = st.lastValidPosition)
    ∧ (∀ (primary : BtnCandidate) (fallbacks : List BtnCandidate),
      primary.fileExists = false → (∀ c ∈ fallbacks, c.fileExists = false) →
      (readButtonFile primary fallbacks).2 = none) := by
  refine ⟨?_, ?_, ?_⟩
  · intro st primary fallbacks h
    simp only [readPositionFile]
    rcases hp : tryPaths { st with lastRaw := "" } (primary :: fallbacks) with ⟨st1, r⟩
    cases r with
    | some p => rw [hp] at h; exact absurd h (by simp)
    | none =>
      have h1 : st1.lastValidPosition = st.lastValidPosition := by
        have h2 := tryPaths_fail_preserves { st with lastRaw := "" } (primary :: fallbacks)
          (by rw [hp])
        rw [hp] at h2
        exact h2
      simp only
      split <;> simp [h1]
  · intro st primary fallbacks hp hf
    have hall : ∀ c ∈ primary :: fallbacks, c.fileExists = false := by
      intro c hc
      rcases List.mem_cons.mp hc with h | h
      · rw [h]; exact hp
      · exact hf c h
    simp only [readPositionFile, tryPaths_all_missing _ _ hall]
    split <;> rfl
  · intro primary fallbacks hp hf
    have hall : ∀ c ∈ primary :: fallbacks, c.fileExists = false := by
      intro c hc
      rcases List.mem_cons.mp hc with h | h
      · rw [h]; exact hp
      · exact hf c h
    simp only [readButtonFile, tryPathsB_all_missing _ _ hall]

/-- C3 witness for the amended statement. -/
theorem read_total_failure_witness :
    (readPositionFile ⟨(3, 4), 0, "old"⟩ ⟨false, "", none⟩
        [⟨false, "", none⟩, ⟨false, "", none⟩]).2 = (3, 4)
    ∧ (readButtonFile ⟨false, "", none⟩ [⟨false, "", none⟩]).2 = none :=
  ⟨read_total_failure_cached_position_null_button.2.1 ⟨(3, 4), 0, "old"⟩
      ⟨false, "", none⟩ [⟨false, "", none⟩, ⟨false, "", none⟩] rfl
      (by intro c hc; fin_cases hc <;> rfl),
   read_total_failure_cached_position_null_button.2.2 ⟨false, "", none⟩
      [⟨false, "", none⟩] rfl (by intro c hc; fin_cases hc; rfl)⟩

/-- `nearestKeyIndex` fails only on an empty timeline. -/
lemma nearestPair_eq_none (t : ℚ) (l : List Keyframe)
    (h : nearestPair t l = none) : l = [] := by
  cases l with
  | nil => rfl
  | cons k ks =>
    rcases hks : nearestPair t ks with _ | ⟨j, kj⟩
    · simp [nearestPair, hks] at h
    · simp only [nearestPair, hks] at h
      split at h <;> simp at h

/-- The nearest keyframe really sits at the returned index. -/
lemma nearestPair_get (t : ℚ) :
    ∀ (l : List Keyframe) (j : Nat) (kj : Keyframe),
      nearestPair t l = some (j, kj) → l.get? j = some kj := by
  intro l
  induction l with
  | nil => intro j kj h; simp [nearestPair] at h
  | cons k ks ih =>
    intro j kj h
    rcases hks : nearestPair t ks with _ | ⟨j', kj'⟩
    · simp only [nearestPair, hks] at h
      simp only [Option.some_inj, Prod.mk.injEq] at h
      obtain ⟨hj, hk⟩ := h
      subst hj; subst hk
      rfl
    · simp only [nearestPair, hks] at h
      split at h <;> simp only [Option.some_inj, Prod.mk.injEq] at h <;>
        obtain ⟨hj, hk⟩ := h <;> subst hj <;> subst hk
      · rfl
      · simpa using ih j' kj' hks

/-- The keyframe returned by `nearestKeyIndex` minimises the distance
to the playhead over the whole timeline. -/
lemma nearestPair_min (t : ℚ) :
    ∀ (l : List Keyframe) (j : Nat) (kj : Keyframe),
      nearestPair t l = some (j, kj) → ∀ k ∈ l, distTo t kj ≤ distTo t k := by
  intro l
  induction l with
  | nil => intro j kj h; simp [nearestPair] at h
  | cons k ks ih =>
    intro j kj h k' hk'
    rcases hks : nearestPair t ks with _ | ⟨j', kj'⟩
    · simp only [nearestPair, hks] at h
      have hnil := nearestPair_eq_none t ks hks
      subst hnil
      simp only [Option.some_inj, Prod.mk.injEq] at h
      obtain ⟨hj, hk⟩ := h
      subst hk
      have hke : k' = k := by simpa using hk'
      subst hke
      exact le_refl _
    · simp only [nearestPair, hks] at h
      rcases List.mem_cons.mp hk' with he | hm
      · subst he
        split at h <;> simp only [Option.some_inj, Prod.mk.injEq] at h <;>
          obtain ⟨hj, hk⟩ := h <;> subst hk
        · exact le_refl _
        · rename_i hgt
          exact le_of_lt (lt_of_not_le hgt)
      · split at h <;> simp only [Option.some_inj, Prod.mk.injEq] at h <;>
          obtain ⟨hj, hk⟩ := h <;> subst hk
        · rename_i hle
          exact le_trans hle (ih j' kj' hks k' hm)
        · exact ih j' kj' hks k' hm

/-- Erasing the element at index `i` removes exactly its contribution
to a `countP`. -/
lemma countP_eraseIdx {α : Type} (p : α → Bool) :
    ∀ (l : List α) (i : Nat) (a : α), l.get? i = some a →
      (l.eraseIdx i).countP p = l.countP p - (if p a then 1 else 0) := by
  intro l
  induction l with
  | nil => intro i a h; simp at h
  | cons b l ih =>
    intro i a h
    cases i with
    | zero =>
      have hb : b = a := by simpa using h
      subst hb
      simp [List.eraseIdx_cons_zero, List.countP_cons]
    | succ i =>
      have hg : l.get? i = some a := by simpa using h
      have hmem : a ∈ l := List.get?_mem hg
      have hle : (if p a then 1 else 0) ≤ l.countP p := by
        by_cases hpa : p a
        · simpa [hpa] using List.countP_pos_iff.mpr ⟨a, hmem, hpa⟩
        · simp [hpa]
      rw [List.eraseIdx_cons_succ, List.countP_cons, List.countP_cons, ih i a hg]
      omega

/-- `setValueAtTime` at a fresh time adds exactly one keyframe's
contribution to a `countP`. -/
lemma countP_setValueAtTime (p : Keyframe → Bool) (t v : ℚ) :
    ∀ l : List Keyframe, (∀ k ∈ l, k.time ≠ t) →
      (setValueAtTime l t v).countP p = l.countP p + (if p ⟨t, v⟩ then 1 else 0) := by
  intro l
  induction l with
  | nil => intro _h; simp [setValueAtTime, List.countP_cons]
  | cons k ks ih =>
    intro h
    have hkt : ¬ (t = k.time) := fun he => h k (by simp) he.symm
    simp only [setValueAtTime]
    by_cases hlt : t < k.time
    · rw [if_pos hlt]
      simp only [List.countP_cons]
    · rw [if_neg hlt, if_neg hkt]
      simp only [List.countP_cons,
        ih fun k' hk' => h k' (List.mem_cons_of_mem _ hk')]
      omega

/-- Keyframe presence at the playhead, counted. -/
lemma hasKeyNear_true_iff (l : List Keyframe) (t : ℚ) :
    hasKeyNear l t = true ↔ 0 < l.countP (nearP t) := by
  simp [hasKeyNear, List.any_eq_true, List.countP_pos_iff]

/-- Absence of keyframes at the playhead, counted. -/
lemma hasKeyNear_false_iff (l : List Keyframe) (t : ℚ) :
    hasKeyNear l t = false ↔ l.countP (nearP t) = 0 := by
  rw [← Bool.not_eq_true, hasKeyNear_true_iff]
  omega

/-- The keyframe inserted at the playhead is within tolerance of it. -/
lemma nearP_self (t v : ℚ) : nearP t ⟨t, v⟩ = true := by
  simp only [nearP, distTo, sub_self, abs_zero, decide_eq_true_eq]
  norm_num [kfEpsilon]

/-- A keyframe outside the tolerance does not sit at the playhead. -/
lemma time_ne_of_not_near (t : ℚ) (k : Keyframe) (h : nearP t k = false) :
    k.time ≠ t := by
  intro he
  simp only [nearP, distTo, he, sub_self, abs_zero] at h
  rw [decide_eq_false_iff_not] at h
  exact h (by norm_num [kfEpsilon])

/-- When no keyframe is within tolerance, the toggle inserts. -/
lemma toggle_of_no_near (keys : List Keyframe) (t v : ℚ)
    (h : ∀ k ∈ keys, nearP t k = false) :
    toggleAtPlayhead keys t v = setValueAtTime keys t v := by
  simp only [toggleAtPlayhead]
  cases hn : nearestPair t keys with
  | none => rfl
  | some pr =>
    obtain ⟨i, ki⟩ := pr
    have hki : ki ∈ keys := List.get?_mem (nearestPair_get t keys i ki hn)
    have hfar : ¬ (distTo t ki < kfEpsilon) := by
      have := h ki hki
      simpa [nearP] using this
    exact if_neg hfar

/-- When the nearest keyframe is within tolerance, the toggle erases it. -/
lemma toggle_of_near (keys : List Keyframe) (t v : ℚ) (i : Nat) (ki : Keyframe)
    (hn : nearestPair t keys = some (i, ki))
    (hnear : distTo t ki < kfEpsilon) :
    toggleAtPlayhead keys t v = keys.eraseIdx i := by
  simp only [toggleAtPlayhead, hn]
  rw [if_pos hnear]

/-- C6 counterexample: with two keyframes both within the tolerance of
the playhead (times 0.9997 and 1.0004, playhead 1, ε = 0.001), the
first toggle removes only the nearest keyframe and the second toggle
removes the other one, so two presses do not restore the original
keyframe presence at the playhead. -/
theorem toggle_twice_two_keys_within_tolerance_cex :
    hasKeyNear [⟨9997/10000, 0⟩, ⟨10004/10000, 0⟩] 1 = true
    ∧ hasKeyNear
        (toggleAtPlayhead
          (toggleAtPlayhead [⟨9997/10000, 0⟩, ⟨10004/10000, 0⟩] 1 5) 1 5) 1
      = false := by
  norm_num [hasKeyNear, nearP, distTo, kfEpsilon, toggleAtPlayhead, nearestPair,
    setValueAtTime, abs_sub_comm, abs_of_nonneg, abs_of_nonpos]

/-- C6 (amended): applying the keyframe toggle twice at the same
playhead time `t`, with no intervening change, restores the original
keyframe presence at `t`, provided at most one keyframe lies within the
tolerance ε of `t`; without that proviso the restoration can fail, as
the two-keyframe counterexample shows. -/
theorem toggle_twice_restores_presence (keys : List Keyframe) (t v : ℚ)
    (h1 : keys.countP (nearP t) ≤ 1) :
    hasKeyNear (toggleAtPlayhead (toggleAtPlayhead keys t v) t v) t
      = hasKeyNear keys t := by
  by_cases hp : hasKeyNear keys t = true
  · -- a keyframe is present within tolerance: exactly one, by `h1`
    have hpos : 0 < keys.countP (nearP t) := (hasKeyNear_true_iff keys t).mp hp
    have hone : keys.countP (nearP t) = 1 := le_antisymm h1 hpos
    obtain ⟨k0, hk0m, hk0⟩ := List.countP_pos_iff.mp hpos
    obtain ⟨i, ki, hn⟩ : ∃ i ki, nearestPair t keys = some (i, ki) := by
      cases hn : nearestPair t keys with
      | none =>
        rw [nearestPair_eq_none t keys hn] at hk0m
        exact absurd hk0m (List.not_mem_nil k0)
      | some pr =>
        obtain ⟨i0, ki0⟩ := pr
        exact ⟨i0, ki0, rfl⟩
    have hget : keys.get? i = some ki := nearestPair_get t keys i ki hn
    have hki_near : distTo t ki < kfEpsilon :=
      lt_of_le_of_lt (nearestPair_min t keys i ki hn k0 hk0m)
        (by simpa [nearP] using hk0)
    rw [toggle_of_near keys t v i ki hn hki_near]
    have hzero : (keys.eraseIdx i).countP (nearP t) = 0 := by
      rw [countP_eraseIdx (nearP t) keys i ki hget, hone]
      simp [nearP, hki_near]
    have hnonear : ∀ k ∈ keys.eraseIdx i, nearP t k = false := by
      intro k hk
      have := List.countP_eq_zero.mp hzero k hk
      simpa using this
    rw [toggle_of_no_near (keys.eraseIdx i) t v hnonear]
    have htne : ∀ k ∈ keys.eraseIdx i, k.time ≠ t :=
      fun k hk => time_ne_of_not_near t k (hnonear k hk)
    have hfinal : (setValueAtTime (keys.eraseIdx i) t v).countP (nearP t) = 1 := by
      rw [countP_setValueAtTime (nearP t) t v (keys.eraseIdx i) htne, hzero,
        nearP_self]
      simp
    rw [hp, (hasKeyNear_true_iff _ t).mpr (by omega)]
  · -- no keyframe within tolerance: the first toggle inserts one
    have hfalse : hasKeyNear keys t = false := by
      cases hb : hasKeyNear keys t
      · rfl
      · exact absurd hb hp
    have hzero : keys.countP (nearP t) = 0 := (hasKeyNear_false_iff keys t).mp hfalse
    have hnonear : ∀ k ∈ keys, nearP t k = false := by
      intro k hk
      have := List.countP_eq_zero.mp hzero k hk
      simpa using this
    have htne : ∀ k ∈ keys, k.time ≠ t :=
      fun k hk => time_ne_of_not_near t k (hnonear k hk)
    rw [toggle_of_no_near keys t v hnonear]
    have hins : (setValueAtTime keys t v).countP (nearP t) = 1 := by
      rw [countP_setValueAtTime (nearP t) t v keys htne, hzero, nearP_self]
      simp
    obtain ⟨kn, hknm, hkn⟩ := List.countP_pos_iff.mp (by omega : 0 < (setValueAtTime keys t v).countP (nearP t))
    obtain ⟨i, ki, hn⟩ : ∃ i ki, nearestPair t (setValueAtTime keys t v) = some (i, ki) := by
      cases hn : nearestPair t (setValueAtTime keys t v) with
      | none =>
        rw [nearestPair_eq_none t _ hn] at hknm
        exact absurd hknm (List.not_mem_nil kn)
      | some pr =>
        obtain ⟨i0, ki0⟩ := pr
        exact ⟨i0, ki0, rfl⟩
    have hget := nearestPair_get t _ i ki hn
    have hki_near : distTo t ki < kfEpsilon :=
      lt_of_le_of_lt (nearestPair_min t _ i ki hn kn hknm)
        (by simpa [nearP] using hkn)
    rw [toggle_of_near _ t v i ki hn hki_near]
    have hafter : ((setValueAtTime keys t v).eraseIdx i).countP (nearP t) = 0 := by
      rw [countP_eraseIdx (nearP t) _ i ki hget, hins]
      simp [nearP, hki_near]
    rw [hfalse, (hasKeyNear_false_iff _ t).mpr hafter]

/-- C6 witness for the amended statement. -/
theorem toggle_twice_restores_presence_witness :
    hasKeyNear (toggleAtPlayhead (toggleAtPlayhead [⟨3, 9⟩] 1 5) 1 5) 1
      = hasKeyNear [⟨3, 9⟩] 1 :=
  toggle_twice_restores_presence [⟨3, 9⟩] 1 5
    (by norm_num [List.countP_cons, List.countP_nil, nearP, distTo, kfEpsilon])

end LogiBridge
